import Mathlib

/-!
Verification development for the genmaps geological-survey pipeline.

The Python sources are shallowly embedded:
* numbers (latitude, longitude, elevation, displacement) are modelled as `ℚ`;
* Python `dict` field access `d["k"]` on a possibly-missing key is modelled by
  `Option` fields together with `getKey` (raising `PyErr.keyError`), while
  `d.get("k", default)` is modelled by `Option.getD`;
* Python list indexing `l[i]` / `l[-1]` is modelled by `listGet` / `listLast`
  (raising `PyErr.indexError` out of range);
* functions that may raise are embedded in `Except PyErr`; a Python `for` loop
  that builds a list and may raise is `mapExcept`.
-/

namespace GenMaps

/-- Python exceptions that the embedded code paths can raise. -/
inductive PyErr where
  | keyError (key : String)
  | indexError
  | valueError
  deriving DecidableEq, Repr, Inhabited

/-- Strict dict access `d["k"]`: raises `KeyError` when the field is absent. -/
def getKey {a : Type} (o : Option a) (k : String) : Except PyErr a :=
  match o with
  | some v => .ok v
  | none => .error (.keyError k)

/-- Python `l[i]` for a non-negative index: `IndexError` when out of range. -/
def listGet {a : Type} (l : List a) (i : ℕ) : Except PyErr a :=
  match l.get? i with
  | some v => .ok v
  | none => .error .indexError

/-- Python `l[-1]`: the last element, `IndexError` on the empty list. -/
def listLast {a : Type} (l : List a) : Except PyErr a :=
  match l.getLast? with
  | some v => .ok v
  | none => .error .indexError

/-- A Python `for x in l: out.append(f(x))` loop whose body may raise:
the first raised exception aborts the whole loop. -/
def mapExcept {a b : Type} (f : a → Except PyErr b) : List a → Except PyErr (List b)
  | [] => .ok []
  | x :: xs => do
    let y ← f x
    let ys ← mapExcept f xs
    pure (y :: ys)

/-- A coordinate dict `{lat, lon, elevation}`; the sources always read `lat` and
`lon` strictly via `p["lat"]`/`p["lon"]` on well-formed points, but read
elevation via `p.get("elevation", 0)`, so only `elevation` is optional here. -/
structure Coord where
  lat : ℚ
  lon : ℚ
  elevation : Option ℚ
  deriving DecidableEq, Repr, Inhabited

/-- Python `p.get("elevation", 0)` from `survey_processor.py`. -/
def elevOf (c : Coord) : ℚ := c.elevation.getD 0

/-- A record of the minerals/rocks datasets; only the `name` field is read by
the embedded code paths (`knowledge_base.py` compares `item["name"]`). -/
structure Record where
  name : String
  deriving DecidableEq, Repr, Inhabited

/-- In-memory state of `KnowledgeBase`: the loaded minerals and rocks lists. -/
structure KnowledgeBase where
  minerals : List Record
  rocks : List Record
  deriving DecidableEq, Repr, Inhabited

/-- Python `s.lower()`, compared as a character list. -/
def lowerStr (s : String) : List Char := s.data.map Char.toLower

/-- Embeds `KnowledgeBase.get_mineral`: first mineral whose name matches
case-insensitively, else `None`. -/
def get_mineral (kb : KnowledgeBase) (name : String) : Option Record :=
  kb.minerals.find? (fun m => lowerStr m.name == lowerStr name)

/-- Embeds `KnowledgeBase.get_rock`: first rock whose name matches
case-insensitively, else `None`. -/
def get_rock (kb : KnowledgeBase) (name : String) : Option Record :=
  kb.rocks.find? (fun r => lowerStr r.name == lowerStr name)

/-- The `{"classification": ..., "data": ...}` dict built by
`SurveyProcessor._get_unit_details`. -/
structure UnitDetails where
  classification : String
  data : Record
  deriving DecidableEq, Repr, Inhabited

/-- Embeds `SurveyProcessor._get_unit_details`: rock lookup first, then mineral,
else an "unknown" classification carrying just the queried name. -/
def _get_unit_details (kb : KnowledgeBase) (unit_type : String) : UnitDetails :=
  match get_rock kb unit_type with
  | some rock => ⟨"rock", rock⟩
  | none =>
    match get_mineral kb unit_type with
    | some mineral => ⟨"mineral", mineral⟩
    | none => ⟨"unknown", ⟨unit_type⟩⟩

/-- A raw unit dict from the survey input.  The sources access
`unit["type"]` and `unit["coordinates"]` strictly and
`unit.get("description", "")` leniently, so all fields are optional and the
strict accesses go through `getKey`. -/
structure InUnit where
  type : Option String
  coordinates : Option (List Coord)
  description : Option String
  deriving DecidableEq, Repr, Inhabited

/-- The raw `survey_data` dict consumed by `process_survey_data`; both
collections are read with `.get(key, [])`, hence optional. -/
structure SurveyData where
  units : Option (List InUnit)
  coordinates : Option (List Coord)
  deriving DecidableEq, Repr, Inhabited

/-- A processed unit dict as built by `_identify_units`. -/
structure OutUnit where
  type : String
  coordinates : List Coord
  properties : UnitDetails
  description : String
  deriving DecidableEq, Repr, Inhabited

/-- A boundary dict as built by `_identify_boundaries`. -/
structure Boundary where
  type : String
  between : String × String
  coordinates : List Coord
  deriving DecidableEq, Repr, Inhabited

/-- A structural-feature dict as built by `_identify_structural_features`. -/
structure Feature where
  type : String
  coordinates : List Coord
  displacement : ℚ
  deriving DecidableEq, Repr, Inhabited

/-- The dict returned by `process_survey_data`. -/
structure Processed where
  units : List OutUnit
  boundaries : List Boundary
  structural_features : List Feature
  coordinates : List Coord
  deriving DecidableEq, Repr, Inhabited

/-- The loop body of `_identify_units`: strict access to `unit["type"]` (read
first, for `_get_unit_details`) and `unit["coordinates"]` may raise `KeyError`. -/
def classifyRaw (kb : KnowledgeBase) (u : InUnit) : Except PyErr OutUnit := do
  let t ← getKey u.type "type"
  let cs ← getKey u.coordinates "coordinates"
  pure { type := t, coordinates := cs, properties := _get_unit_details kb t,
         description := u.description.getD "" }

/-- Embeds `SurveyProcessor._identify_units`: classify each raw unit in order. -/
def _identify_units (kb : KnowledgeBase) (survey_data : SurveyData) :
    Except PyErr (List OutUnit) :=
  mapExcept (classifyRaw kb) (survey_data.units.getD [])

/-- The `i`-th value of `np.linspace a b 5`, namely `a + i * (b - a) / 4`
(for rationals, `np.linspace`'s exact-endpoint adjustment is the identity). -/
def lerp (a b : ℚ) (i : ℕ) : ℚ := a + (b - a) * i / 4

/-- Embeds `SurveyProcessor._interpolate_points` with its default `n_points = 5`:
zips the three `np.linspace` arrays (lat, lon, elevation-with-default-0)
index by index into coordinate dicts. -/
def _interpolate_points (point1 point2 : Coord) : List Coord :=
  (List.range 5).map (fun i =>
    { lat := lerp point1.lat point2.lat i
      lon := lerp point1.lon point2.lon i
      elevation := some (lerp (elevOf point1) (elevOf point2) i) })

/-- The loop body of `_identify_boundaries` for index `i`: the strict accesses
`units[i]["type"]`, `units[i+1]["type"]`, `units[i]["coordinates"][-1]` and
`units[i+1]["coordinates"][0]`, in Python evaluation order, may raise. -/
def boundaryStep (units : List InUnit) (i : ℕ) : Except PyErr Boundary := do
  let ui ← listGet units i
  let uj ← listGet units (i + 1)
  let ti ← getKey ui.type "type"
  let tj ← getKey uj.type "type"
  let ci ← getKey ui.coordinates "coordinates"
  let p1 ← listLast ci
  let cj ← getKey uj.coordinates "coordinates"
  let p2 ← listGet cj 0
  pure { type := "contact", between := (ti, tj),
         coordinates := _interpolate_points p1 p2 }

/-- Embeds `SurveyProcessor._identify_boundaries`: one "contact" boundary per adjacent
unit pair (`for i in range(len(units)-1)`) when there are at least two units. -/
def _identify_boundaries (survey_data : SurveyData) :
    Except PyErr (List Boundary) :=
  let units := survey_data.units.getD []
  if 1 < units.length then
    mapExcept (boundaryStep units) (List.range (units.length - 1))
  else pure []

/-- The `elev_changes` comprehension of `_identify_structural_features`:
absolute elevation difference of each adjacent coordinate pair. -/
def elevDeltas (coords : List Coord) : List ℚ :=
  (coords.zip coords.tail).map (fun p => |elevOf p.2 - elevOf p.1|)

/-- Python `max(l)` on a non-empty list (the `[]` case is never reached by the
embedded call sites, which guard on length). -/
def listMax (l : List ℚ) : ℚ :=
  match l with
  | [] => 0
  | x :: xs => xs.foldl max x

/-- Python `min(l)` on a non-empty list, analogously. -/
def listMin (l : List ℚ) : ℚ :=
  match l with
  | [] => 0
  | x :: xs => xs.foldl min x

/-- Python `l.index(v)`: index of the first occurrence. -/
def firstIdxOf (l : List ℚ) (v : ℚ) : ℕ := l.findIdx (fun x => x == v)

/-- Embeds `SurveyProcessor._identify_structural_features`: with at least two raw
coordinates, compute the adjacent elevation deltas; if the maximum exceeds 50,
emit one "fault" feature at the pair realising the first maximum. -/
def _identify_structural_features (survey_data : SurveyData) : List Feature :=
  let coordinates := survey_data.coordinates.getD []
  if 1 < coordinates.length then
    let pairs := coordinates.zip coordinates.tail
    let elev_changes := elevDeltas coordinates
    let m := listMax elev_changes
    if 50 < m then
      match pairs.get? (firstIdxOf elev_changes m) with
      | some p => [{ type := "fault", coordinates := [p.1, p.2], displacement := m }]
      | none => []
    else []
  else []

/-- Embeds `SurveyProcessor.process_survey_data`: the four dict fields are computed in
source order (`units`, `boundaries`, `structural_features`, `coordinates`); an
exception from the first two aborts the whole call. -/
def process_survey_data (kb : KnowledgeBase) (survey_data : SurveyData) :
    Except PyErr Processed := do
  let units ← _identify_units kb survey_data
  let boundaries ← _identify_boundaries survey_data
  pure { units := units, boundaries := boundaries,
         structural_features := _identify_structural_features survey_data,
         coordinates := survey_data.coordinates.getD [] }

/-! ### `survey_manager.py`: type inference -/

/-- Boolean prefix test on character lists. -/
def leadsWith : List Char → List Char → Bool
  | [], _ => true
  | _ :: _, [] => false
  | a :: as, b :: bs => a == b && leadsWith as bs

/-- Python substring containment `pat in text` on character lists. -/
def containsSub (pat : List Char) : List Char → Bool
  | [] => pat.isEmpty
  | c :: cs => leadsWith pat (c :: cs) || containsSub pat cs

/-- The character list of `description.lower()`. -/
def lowerChars (s : String) : List Char := s.data.map Char.toLower

/-- Python `kw in description` after lower-casing, as used by the inference rules. -/
def hasKw (d : List Char) (s : String) : Bool := containsSub s.data d

/-- The `if`/`elif` chain of `SurveyManager.infer_type_from_description`,
over the already lower-cased text. -/
def inferCore (d : List Char) : Option String :=
  if hasKw d "granite" || (hasKw d "coarse" && hasKw d "feldspar") then some "Granite"
  else if hasKw d "basalt" || (hasKw d "fine" && hasKw d "volcanic") then some "Basalt"
  else if hasKw d "quartz" && hasKw d "clear" then some "Quartz"
  else if hasKw d "limestone" || (hasKw d "reacts" && hasKw d "acid") then some "Limestone"
  else none

/-- Embeds `SurveyManager.infer_type_from_description`: lower-case once, then apply
the ordered keyword rules. -/
def infer_type_from_description (description : String) : Option String :=
  inferCore (lowerChars description)

/-- The four keyword rules in their source priority order, each a predicate on
the lower-cased text together with the label it returns. -/
def inferRules : List ((List Char → Bool) × String) :=
  [ (fun d => hasKw d "granite" || (hasKw d "coarse" && hasKw d "feldspar"), "Granite"),
    (fun d => hasKw d "basalt" || (hasKw d "fine" && hasKw d "volcanic"), "Basalt"),
    (fun d => hasKw d "quartz" && hasKw d "clear", "Quartz"),
    (fun d => hasKw d "limestone" || (hasKw d "reacts" && hasKw d "acid"), "Limestone") ]

/-! ### `survey_manager.py`: the survey store -/

/-- A description entry as appended by `add_description`. -/
structure DescEntry where
  location_index : ℕ
  text : String
  inferred_type : Option String
  deriving DecidableEq, Repr, Inhabited

/-- A survey record of `survey_records.json`. -/
structure Survey where
  id : String
  coordinates : List Coord
  descriptions : List DescEntry
  formation : Option String
  date : String
  deriving DecidableEq, Repr, Inhabited

/-- Little-endian decimal digits of `n`, with structural fuel (any
`fuel ≥ n` gives the digits of `n`). -/
def decDigitsAux : ℕ → ℕ → List ℕ
  | 0, _ => []
  | fuel + 1, n => if n = 0 then [] else n % 10 :: decDigitsAux fuel (n / 10)

/-- The decimal digit characters of `n`, most significant first (Python
`str(n)` for a natural number). -/
def decChars (n : ℕ) : List Char :=
  if n = 0 then ['0'] else ((decDigitsAux n n).map Nat.digitChar).reverse

/-- Python format `f"{n:03d}"`: the decimal digits left-padded with zeros to
width at least 3. -/
def fmt03 (n : ℕ) : List Char :=
  List.replicate (3 - (decChars n).length) '0' ++ decChars n

/-- The id string `f"survey_{n:03d}"` assigned by `create_survey`. -/
def mkSurveyId (n : ℕ) : String := String.mk ("survey_".data ++ fmt03 n)

/-- Embeds `SurveyManager.create_survey`: id from current collection length plus one,
append the fresh record, return the new store and the id.  The wall-clock
`date` is an external input of the model. -/
def create_survey (surveys : List Survey) (coordinates : List Coord)
    (formation : Option String) (date : String) : List Survey × String :=
  let survey_id := mkSurveyId (surveys.length + 1)
  (surveys ++ [{ id := survey_id, coordinates := coordinates, descriptions := [],
                 formation := formation, date := date }], survey_id)

/-- Embeds `SurveyManager._get_survey`: first survey with the given id, else `None`. -/
def _get_survey (surveys : List Survey) (survey_id : String) : Option Survey :=
  surveys.find? (fun s => s.id == survey_id)

/-- The `{"type": ..., "data": ...}` dict of `SurveyManager._get_type_details`
(note: mineral lookup first here, unlike `_get_unit_details`). -/
structure TypeDetails where
  type : String
  data : Record
  deriving DecidableEq, Repr, Inhabited

/-- Embeds `SurveyManager._get_type_details`. -/
def _get_type_details (kb : KnowledgeBase) (type_name : String) : TypeDetails :=
  match get_mineral kb type_name with
  | some m => ⟨"mineral", m⟩
  | none =>
    match get_rock kb type_name with
    | some r => ⟨"rock", r⟩
    | none => ⟨"unknown", ⟨type_name⟩⟩

/-- Apply `f` to the first list element satisfying `p`, keeping the rest;
models Python mutating the object returned by a first-match linear search. -/
def updateFirst {a : Type} (p : a → Bool) (f : a → a) : List a → List a
  | [] => []
  | x :: xs => if p x then f x :: xs else x :: updateFirst p f xs

/-- Embeds `SurveyManager.add_description`: if the id is not found return `None` and
leave the store alone; otherwise append the entry (with the inferred type,
possibly `None`) to the found survey, persist, and return the type details
when a type was inferred, else `None`. -/
def add_description (kb : KnowledgeBase) (surveys : List Survey)
    (survey_id : String) (description : String) (location_index : ℕ) :
    List Survey × Option TypeDetails :=
  match _get_survey surveys survey_id with
  | none => (surveys, none)
  | some _ =>
    let inferred_type := infer_type_from_description description
    let entry : DescEntry :=
      { location_index := location_index, text := description,
        inferred_type := inferred_type }
    let surveys2 := updateFirst (fun s => s.id == survey_id)
      (fun s => { s with descriptions := s.descriptions ++ [entry] }) surveys
    match inferred_type with
    | some t => (surveys2, some (_get_type_details kb t))
    | none => (surveys2, none)

/-- A single-threaded `SurveyManager` operation (claim C9's operation class). -/
inductive MgrOp where
  | create (coordinates : List Coord) (formation : Option String) (date : String)
  | addDesc (survey_id : String) (description : String) (location_index : ℕ)

/-- Effect of one operation on the survey store. -/
def applyOp (kb : KnowledgeBase) (surveys : List Survey) : MgrOp → List Survey
  | .create cs f d => (create_survey surveys cs f d).1
  | .addDesc sid t li => (add_description kb surveys sid t li).1

/-- Run a sequence of operations from the empty survey store. -/
def runOps (kb : KnowledgeBase) (ops : List MgrOp) : List Survey :=
  ops.foldl (applyOp kb) []

/-! ### `map_generator.py` -/

/-- A boundary dict as read by `_plot_boundary` (only `boundary["coordinates"]`
is accessed, strictly). -/
structure MapBoundaryIn where
  coordinates : Option (List Coord)
  deriving DecidableEq, Repr, Inhabited

/-- A structural-feature dict as read by `_plot_structural_feature`
(`feature["type"]` strictly; `feature["coordinates"]` strictly when the type
is `"fault"`). -/
structure MapFeature where
  type : Option String
  coordinates : Option (List Coord)
  deriving DecidableEq, Repr, Inhabited

/-- The `survey_data` dict consumed by `generate_detailed_map`:
`data["coordinates"]` is accessed strictly, everything else via `.get`. -/
structure MapData where
  id : Option String
  coordinates : Option (List Coord)
  units : Option (List InUnit)
  boundaries : Option (List MapBoundaryIn)
  structural_features : Option (List MapFeature)
  deriving DecidableEq, Repr, Inhabited

/-- Python `min(l)`: `ValueError` on the empty list. -/
def pyMin (l : List ℚ) : Except PyErr ℚ :=
  match l with
  | [] => .error .valueError
  | x :: xs => .ok (xs.foldl min x)

/-- Python `max(l)`: `ValueError` on the empty list. -/
def pyMax (l : List ℚ) : Except PyErr ℚ :=
  match l with
  | [] => .error .valueError
  | x :: xs => .ok (xs.foldl max x)

/-- The strict dict access performed by `MapGenerator._plot_boundary`
(`boundary["coordinates"]`). -/
def _plot_boundary_chk (b : MapBoundaryIn) : Except PyErr Unit := do
  let _ ← getKey b.coordinates "coordinates"
  pure ()

/-- The strict dict accesses performed by `MapGenerator._plot_unit`
(`unit["type"]` for the colour, then `unit["coordinates"]`). -/
def _plot_unit_chk (u : InUnit) : Except PyErr Unit := do
  let _ ← getKey u.type "type"
  let _ ← getKey u.coordinates "coordinates"
  pure ()

/-- The strict dict accesses performed by `MapGenerator._plot_structural_feature`. -/
def _plot_structural_feature_chk (f : MapFeature) : Except PyErr Unit := do
  let t ← getKey f.type "type"
  if t = "fault" then do
    let _ ← getKey f.coordinates "coordinates"
    pure ()
  else pure ()

/-- Embeds `MapGenerator._plot_geological_features`: computes the axis bounds
(min/max longitude and latitude, each expanded by the fixed `margin = 0.1`)
and walks every unit, boundary and feature; returns the `(xlim, ylim)` pair
it sets.  Raises `KeyError` when `data["coordinates"]` is absent and
`ValueError` (from `min`) when the coordinate list is empty. -/
def _plot_geological_features (data : MapData) :
    Except PyErr ((ℚ × ℚ) × (ℚ × ℚ)) := do
  let cs ← getKey data.coordinates "coordinates"
  let lats := cs.map (fun p => p.lat)
  let lons := cs.map (fun p => p.lon)
  let xlo ← pyMin lons
  let xhi ← pyMax lons
  let ylo ← pyMin lats
  let yhi ← pyMax lats
  let _ ← mapExcept _plot_unit_chk (data.units.getD [])
  let _ ← mapExcept _plot_boundary_chk (data.boundaries.getD [])
  let _ ← mapExcept _plot_structural_feature_chk (data.structural_features.getD [])
  pure ((xlo - 1/10, xhi + 1/10), (ylo - 1/10, yhi + 1/10))

/-- Embeds `MapGenerator._save_map`: the deterministic artifact file name derived from
the survey id (the fixed output directory prefix is elided). -/
def _save_map (survey_id : String) : String :=
  "geological_map_" ++ survey_id ++ ".png"

/-- The `try` block of `generate_detailed_map`: plot everything, then save and
return the artifact path, with `data.get("id", "survey")` as the id. -/
def renderBody (data : MapData) : Except PyErr String := do
  let _ ← _plot_geological_features data
  pure (_save_map (data.id.getD "survey"))

/-- Observable outcome of `generate_detailed_map`: the returned value and
whether the `finally: plt.close("all")` cleanup ran. -/
structure RenderOutcome where
  result : Option String
  closed_figures : Bool
  deriving DecidableEq, Repr, Inhabited

/-- Embeds `MapGenerator.generate_detailed_map`: the `try`/`except`/`finally` wrapper
around `renderBody` — any exception is caught and converted to `None`, and the
cleanup runs on both exit paths. -/
def generate_detailed_map (data : MapData) : RenderOutcome :=
  match renderBody data with
  | .ok path => { result := some path, closed_figures := true }
  | .error _ => { result := none, closed_figures := true }

/-! ### State-passing embedding of `process_survey_data` (claim C8)

The Python method runs against mutable state: the processor's
`self.knowledge_base` object and the caller's `survey_data` dict.  To talk
about mutation at all, the pipeline is re-embedded in explicit state-passing
style over that state; every step of the source is a read, and the refinement
theorem for C8 shows the final state equals the initial one and that the pure
embedding is recovered. -/

/-- The mutable state visible to `process_survey_data`. -/
def ProcState : Type := KnowledgeBase × SurveyData

/-- State-passing `for` loop of a fallible body. -/
def mapExceptS {a b : Type} (f : a → ProcState → Except PyErr b × ProcState) :
    List a → ProcState → Except PyErr (List b) × ProcState
  | [], s => (.ok [], s)
  | x :: xs, s =>
    match f x s with
    | (.error e, s1) => (.error e, s1)
    | (.ok y, s1) =>
      match mapExceptS f xs s1 with
      | (.error e, s2) => (.error e, s2)
      | (.ok ys, s2) => (.ok (y :: ys), s2)

/-- Read `self.knowledge_base.get_rock(...)` of the shared state. -/
def get_rockS (name : String) (s : ProcState) : Option Record × ProcState :=
  (get_rock s.1 name, s)

/-- Read `self.knowledge_base.get_mineral(...)` of the shared state. -/
def get_mineralS (name : String) (s : ProcState) : Option Record × ProcState :=
  (get_mineral s.1 name, s)

/-- State-passing `_get_unit_details`. -/
def _get_unit_detailsS (unit_type : String) (s : ProcState) :
    UnitDetails × ProcState :=
  match get_rockS unit_type s with
  | (some rock, s1) => (⟨"rock", rock⟩, s1)
  | (none, s1) =>
    match get_mineralS unit_type s1 with
    | (some mineral, s2) => (⟨"mineral", mineral⟩, s2)
    | (none, s2) => (⟨"unknown", ⟨unit_type⟩⟩, s2)

/-- State-passing loop body of `_identify_units`. -/
def classifyRawS (u : InUnit) (s : ProcState) :
    Except PyErr OutUnit × ProcState :=
  match getKey u.type "type" with
  | .error e => (.error e, s)
  | .ok t =>
    match getKey u.coordinates "coordinates" with
    | .error e => (.error e, s)
    | .ok cs =>
      let (det, s1) := _get_unit_detailsS t s
      (.ok { type := t, coordinates := cs, properties := det,
             description := u.description.getD "" }, s1)

/-- State-passing `_identify_units`. -/
def _identify_unitsS (s : ProcState) : Except PyErr (List OutUnit) × ProcState :=
  mapExceptS classifyRawS (s.2.units.getD []) s

/-- State-passing `_identify_boundaries` (reads `survey_data` from the state;
no knowledge-base access). -/
def _identify_boundariesS (s : ProcState) :
    Except PyErr (List Boundary) × ProcState :=
  (_identify_boundaries s.2, s)

/-- State-passing `_identify_structural_features`. -/
def _identify_structural_featuresS (s : ProcState) :
    List Feature × ProcState :=
  (_identify_structural_features s.2, s)

/-- State-passing `process_survey_data`: the whole method run against the
mutable state, returning the result together with the final state. -/
def process_survey_dataS (s : ProcState) :
    Except PyErr Processed × ProcState :=
  match _identify_unitsS s with
  | (.error e, s1) => (.error e, s1)
  | (.ok units, s1) =>
    match _identify_boundariesS s1 with
    | (.error e, s2) => (.error e, s2)
    | (.ok boundaries, s2) =>
      let (features, s3) := _identify_structural_featuresS s2
      (.ok { units := units, boundaries := boundaries,
             structural_features := features,
             coordinates := s3.2.coordinates.getD [] }, s3)

/-! ### Statement-side helper definitions -/

/-- The unit at index `i` (total, with an unreachable default). -/
def unitAt (us : List InUnit) (i : ℕ) : InUnit := (us.get? i).getD default

/-- The boundary that `_identify_boundaries` builds for adjacent pair `i`,
expressed directly: a "contact" between the two unit types, whose path
interpolates between the last coordinate of unit `i` and the first coordinate
of unit `i + 1`. -/
def mkBoundary (us : List InUnit) (i : ℕ) : Boundary :=
  { type := "contact",
    between := ((unitAt us i).type.getD "", (unitAt us (i + 1)).type.getD ""),
    coordinates := _interpolate_points
      (((unitAt us i).coordinates.getD []).getLast?.getD default)
      (((unitAt us (i + 1)).coordinates.getD []).headD default) }

/-- Value `x` lies in the inclusive range bounded by `a` and `b`. -/
def betweenQ (x a b : ℚ) : Prop := min a b ≤ x ∧ x ≤ max a b

/-- Each of the three components of `q` lies within the inclusive range bounded
by the corresponding components of the two endpoints. -/
def coordInRange (q p1 p2 : Coord) : Prop :=
  betweenQ q.lat p1.lat p2.lat ∧ betweenQ q.lon p1.lon p2.lon ∧
  betweenQ (elevOf q) (elevOf p1) (elevOf p2)

/-- Decimal value of a digit string (tolerating leading zeros); a left inverse
of `fmt03`, used to prove survey ids injective. -/
def valChars (l : List Char) : ℕ :=
  l.foldl (fun a c => 10 * a + (c.toNat - 48)) 0

/-- The id invariant of the survey store: the `i`-th survey carries the id
assigned from collection length `i`. -/
def idInv (surveys : List Survey) : Prop :=
  ∀ i s, surveys.get? i = some s → s.id = mkSurveyId (i + 1)

/-! ### Concrete inputs used by witnesses and counterexamples -/

/-- An empty knowledge base. -/
def kbEmpty : KnowledgeBase := ⟨[], []⟩

/-- A knowledge base whose rock and mineral collections share the name
"Quartz" (up to case). -/
def kbBoth : KnowledgeBase := ⟨[⟨"Quartz"⟩], [⟨"quartz"⟩]⟩

/-- A malformed survey: its single unit lacks the `"type"` field. -/
def sdNoType : SurveyData :=
  ⟨some [{ type := none, coordinates := some [⟨0, 0, none⟩], description := none }],
   some []⟩

/-- A well-formed two-unit survey. -/
def sdTwoUnits : SurveyData :=
  ⟨some [{ type := some "granite", coordinates := some [⟨0, 0, some 10⟩], description := none },
         { type := some "basalt", coordinates := some [⟨1, 1, some 20⟩], description := none }],
   some []⟩

/-- Coordinates whose consecutive elevation deltas are `[5, 60, 3]`. -/
def csDeltas : List Coord :=
  [⟨0, 0, some 0⟩, ⟨0, 0, some 5⟩, ⟨0, 0, some 65⟩, ⟨0, 0, some 62⟩]

/-- A survey carrying `csDeltas` and no units. -/
def sdDeltas : SurveyData := ⟨none, some csDeltas⟩

/-- Map input with an empty coordinate collection. -/
def mapDataEmpty : MapData := ⟨some "s1", some [], none, none, none⟩

/-- Well-formed one-point map input. -/
def mapDataOk : MapData := ⟨some "s1", some [⟨1, 2, none⟩], some [], some [], some []⟩

/-- Two survey-creation operations, for the C9 witness. -/
def opsW : List MgrOp :=
  [.create [] none "2026-01-01", .create [] none "2026-01-02"]

/-- A one-survey store whose survey has id "survey_001" and no descriptions. -/
def storeOne : List Survey := [{ id := "survey_001", coordinates := [],
                                 descriptions := [], formation := none, date := "d" }]

/-! ## Helper lemmas -/

theorem mapExcept_congr_ok {a b : Type} (f : a → Except PyErr b) (g : a → b)
    (l : List a) (h : ∀ x ∈ l, f x = .ok (g x)) :
    mapExcept f l = .ok (l.map g) := by
  induction l with
  | nil => rfl
  | cons x xs ih =>
    have hx := h x (List.mem_cons_self x xs)
    have hxs := ih (fun y hy => h y (List.mem_cons_of_mem x hy))
    simp [mapExcept, hx, hxs, Bind.bind, Except.bind, pure, Except.pure]

theorem mapExcept_error_of_mem {a b : Type} (f : a → Except PyErr b)
    {l : List a} {x : a} (hx : x ∈ l) {e : PyErr} (hfx : f x = .error e) :
    ∃ e2, mapExcept f l = .error e2 := by
  induction l with
  | nil => cases hx
  | cons y ys ih =>
    rcases List.mem_cons.mp hx with rfl | hmem
    · exact ⟨e, by simp [mapExcept, hfx, Bind.bind, Except.bind]⟩
    · cases hfy : f y with
      | error e3 => exact ⟨e3, by simp [mapExcept, hfy, Bind.bind, Except.bind]⟩
      | ok v =>
        obtain ⟨e2, h2⟩ := ih hmem
        exact ⟨e2, by simp [mapExcept, hfy, h2, Bind.bind, Except.bind]⟩

theorem pyMin_eq_listMin (l : List ℚ) (hl : l ≠ []) :
    pyMin l = .ok (listMin l) := by
  cases l with
  | nil => exact absurd rfl hl
  | cons x xs => rfl

theorem pyMax_eq_listMax (l : List ℚ) (hl : l ≠ []) :
    pyMax l = .ok (listMax l) := by
  cases l with
  | nil => exact absurd rfl hl
  | cons x xs => rfl

theorem lerp_mem_between (a b : ℚ) (i : ℕ) (hi : i ≤ 4) :
    betweenQ (lerp a b i) a b := by
  have h0 : (0 : ℚ) ≤ (i : ℚ) := by positivity
  have h4 : (i : ℚ) ≤ 4 := by exact_mod_cast hi
  unfold betweenQ lerp
  rcases le_total a b with hab | hab
  · rw [min_eq_left hab, max_eq_right hab]
    have hba : 0 ≤ b - a := sub_nonneg.mpr hab
    have h1 : 0 ≤ (b - a) * (i : ℚ) := mul_nonneg hba h0
    have h2 : (b - a) * (i : ℚ) ≤ (b - a) * 4 := mul_le_mul_of_nonneg_left h4 hba
    constructor <;> linarith
  · rw [min_eq_right hab, max_eq_left hab]
    have hba : b - a ≤ 0 := sub_nonpos.mpr hab
    have h1 : (b - a) * (i : ℚ) ≤ 0 := mul_nonpos_of_nonpos_of_nonneg hba h0
    have h2 : (b - a) * 4 ≤ (b - a) * (i : ℚ) := mul_le_mul_of_nonpos_left h4 hba
    constructor <;> linarith

theorem _interpolate_points_length (p1 p2 : Coord) :
    (_interpolate_points p1 p2).length = 5 := by
  simp [_interpolate_points]

theorem _interpolate_points_inRange (p1 p2 : Coord) :
    ∀ q ∈ _interpolate_points p1 p2, coordInRange q p1 p2 := by
  intro q hq
  simp only [_interpolate_points, List.mem_map, List.mem_range] at hq
  obtain ⟨i, hi, rfl⟩ := hq
  have hi4 : i ≤ 4 := by omega
  refine ⟨lerp_mem_between _ _ i hi4, lerp_mem_between _ _ i hi4, ?_⟩
  simpa [elevOf] using lerp_mem_between (elevOf p1) (elevOf p2) i hi4

/-! ## Claim theorems -/

/-- C3: `SurveyProcessor`'s unit classification looks the type up among rocks
first and minerals second, case-insensitively on names; a name present in
both collections classifies as "rock", a name present only among minerals as
"mineral", and a name present in neither yields the "unknown" classification
carrying only the name (the function is total: it cannot fail). -/
theorem claim_C3_classification_order (kb : KnowledgeBase) (t : String) :
    ((get_rock kb t).isSome ↔ ∃ r ∈ kb.rocks, lowerStr r.name = lowerStr t) ∧
    ((get_mineral kb t).isSome ↔ ∃ m ∈ kb.minerals, lowerStr m.name = lowerStr t) ∧
    (∀ r, get_rock kb t = some r → _get_unit_details kb t = ⟨"rock", r⟩) ∧
    (get_rock kb t = none → ∀ m, get_mineral kb t = some m →
      _get_unit_details kb t = ⟨"mineral", m⟩) ∧
    (get_rock kb t = none → get_mineral kb t = none →
      _get_unit_details kb t = ⟨"unknown", ⟨t⟩⟩) := by
  refine ⟨?_, ?_, ?_, ?_, ?_⟩
  · simp [get_rock, List.find?_isSome]
  · simp [get_mineral, List.find?_isSome]
  · intro r hr
    simp [_get_unit_details, hr]
  · intro hr m hm
    simp [_get_unit_details, hr, hm]
  · intro hr hm
    simp [_get_unit_details, hr, hm]

theorem claim_C3_classification_order_witness :
    _get_unit_details kbBoth "QUARTZ" = ⟨"rock", ⟨"quartz"⟩⟩ ∧
    (get_mineral kbBoth "QUARTZ").isSome := by
  refine ⟨?_, by decide⟩
  exact (claim_C3_classification_order kbBoth "QUARTZ").2.2.1 ⟨"quartz"⟩ (by decide)

/-- C4: type inference lower-cases the text and returns the label of the first
satisfied rule of the fixed ordered rule list, or `none`; it is a pure
function of the input text, and it sends the five sample descriptions to
"Granite", "Basalt", "Quartz", "Limestone" and no-match respectively. -/
theorem claim_C4_type_inference :
    (∀ s : String, infer_type_from_description s =
      (inferRules.find? (fun r => r.1 (lowerChars s))).map (fun r => r.2)) ∧
    infer_type_from_description "This is granite" = some "Granite" ∧
    infer_type_from_description "fine grained volcanic rock" = some "Basalt" ∧
    infer_type_from_description "a clear quartz crystal" = some "Quartz" ∧
    infer_type_from_description "reacts with acid" = some "Limestone" ∧
    infer_type_from_description "unremarkable gray rock" = none := by
  refine ⟨?_, by decide, by decide, by decide, by decide, by decide⟩
  intro s
  unfold infer_type_from_description inferCore inferRules
  cases h1 : hasKw (lowerChars s) "granite"
      || (hasKw (lowerChars s) "coarse" && hasKw (lowerChars s) "feldspar") <;>
    cases h2 : hasKw (lowerChars s) "basalt"
        || (hasKw (lowerChars s) "fine" && hasKw (lowerChars s) "volcanic") <;>
      cases h3 : hasKw (lowerChars s) "quartz" && hasKw (lowerChars s) "clear" <;>
        cases h4 : hasKw (lowerChars s) "limestone"
            || (hasKw (lowerChars s) "reacts" && hasKw (lowerChars s) "acid") <;>
          simp [List.find?, h1, h2, h3, h4]

/-- C5: absent or empty collections are not failures: with no units,
`process_survey_data` succeeds with empty `units` and `boundaries` (whatever
the coordinates), and with no coordinates the structural features are empty. -/
theorem claim_C5_empty_collections (kb : KnowledgeBase) (sd : SurveyData) :
    (sd.units.getD [] = [] →
      ∃ pr, process_survey_data kb sd = .ok pr ∧ pr.units = [] ∧ pr.boundaries = [] ∧
        (sd.coordinates.getD [] = [] → pr.structural_features = [])) ∧
    (sd.coordinates.getD [] = [] → _identify_structural_features sd = []) := by
  constructor
  · intro hu
    have hunits : _identify_units kb sd = .ok [] := by
      simp [_identify_units, hu, mapExcept]
    have hbd : _identify_boundaries sd = .ok [] := by
      simp [_identify_boundaries, hu, pure, Except.pure]
    refine ⟨⟨[], [], _identify_structural_features sd, sd.coordinates.getD []⟩,
      ?_, rfl, rfl, ?_⟩
    · simp [process_survey_data, hunits, hbd, Bind.bind, Except.bind, pure, Except.pure]
    · intro hc
      simp [_identify_structural_features, hc]
  · intro hc
    simp [_identify_structural_features, hc]

theorem claim_C5_empty_collections_witness :
    ∃ pr, process_survey_data kbEmpty ⟨none, none⟩ = .ok pr ∧ pr.units = [] ∧
      pr.boundaries = [] ∧ pr.structural_features = [] := by
  obtain ⟨pr, h1, h2, h3, h4⟩ :=
    (claim_C5_empty_collections kbEmpty ⟨none, none⟩).1 rfl
  exact ⟨pr, h1, h2, h3, h4 rfl⟩

/-- C7: `generate_detailed_map` returns the artifact path (a deterministic
name derived from the survey id) when the rendering body succeeds, returns
`None` on any internal failure — in particular when the coordinate collection
is empty (the axis bounds `min/max ∓ 0.1` are then undefined) or absent — and
never propagates an exception; the `finally` cleanup releases the rendering
resources on every exit path.  On well-formed input the computed axis bounds
are the min/max longitude and latitude expanded by the fixed `0.1` margin. -/
theorem claim_C7_render_failure (data : MapData) :
    (generate_detailed_map data).closed_figures = true ∧
    (∀ e, renderBody data = .error e → (generate_detailed_map data).result = none) ∧
    (∀ p, renderBody data = .ok p →
      (generate_detailed_map data).result = some p ∧
      p = _save_map (data.id.getD "survey")) ∧
    (data.coordinates = some [] → (generate_detailed_map data).result = none) ∧
    (data.coordinates = none → (generate_detailed_map data).result = none) ∧
    (∀ cs, data.coordinates = some cs → cs ≠ [] →
      (∀ u ∈ data.units.getD [], u.type.isSome ∧ u.coordinates.isSome) →
      (∀ b ∈ data.boundaries.getD [], b.coordinates.isSome) →
      (∀ f ∈ data.structural_features.getD [], f.type.isSome ∧ f.coordinates.isSome) →
      _plot_geological_features data =
        .ok ((listMin (cs.map (fun p => p.lon)) - 1/10,
              listMax (cs.map (fun p => p.lon)) + 1/10),
             (listMin (cs.map (fun p => p.lat)) - 1/10,
              listMax (cs.map (fun p => p.lat)) + 1/10)) ∧
      generate_detailed_map data =
        { result := some (_save_map (data.id.getD "survey")), closed_figures := true }) := by
  refine ⟨?_, ?_, ?_, ?_, ?_, ?_⟩
  · cases h : renderBody data <;> simp [generate_detailed_map, h]
  · intro e he
    simp [generate_detailed_map, he]
  · intro p hp
    refine ⟨by simp [generate_detailed_map, hp], ?_⟩
    unfold renderBody at hp
    cases hpl : _plot_geological_features data with
    | error e => simp [hpl, Bind.bind, Except.bind] at hp
    | ok v =>
      simp [hpl, Bind.bind, Except.bind, pure, Except.pure] at hp
      exact hp.symm
  · intro hc
    have hbody : renderBody data = .error .valueError := by
      simp [renderBody, _plot_geological_features, hc, getKey, pyMin,
        Bind.bind, Except.bind]
    simp [generate_detailed_map, hbody]
  · intro hc
    have hbody : renderBody data = .error (.keyError "coordinates") := by
      simp [renderBody, _plot_geological_features, hc, getKey,
        Bind.bind, Except.bind]
    simp [generate_detailed_map, hbody]
  · intro cs hcs hne hu hb hf
    have hlon : cs.map (fun p => p.lon) ≠ [] := by
      simpa using hne
    have hlat : cs.map (fun p => p.lat) ≠ [] := by
      simpa using hne
    have hunits : mapExcept _plot_unit_chk (data.units.getD []) =
        .ok ((data.units.getD []).map (fun _ => ())) := by
      refine mapExcept_congr_ok _ _ _ (fun u hu2 => ?_)
      obtain ⟨ht, hcrd⟩ := hu u hu2
      obtain ⟨t, ht⟩ := Option.isSome_iff_exists.mp ht
      obtain ⟨crd, hcrd⟩ := Option.isSome_iff_exists.mp hcrd
      simp [_plot_unit_chk, ht, hcrd, getKey, Bind.bind, Except.bind, pure, Except.pure]
    have hbds : mapExcept _plot_boundary_chk (data.boundaries.getD []) =
        .ok ((data.boundaries.getD []).map (fun _ => ())) := by
      refine mapExcept_congr_ok _ _ _ (fun b hb2 => ?_)
      obtain ⟨crd, hcrd⟩ := Option.isSome_iff_exists.mp (hb b hb2)
      simp [_plot_boundary_chk, hcrd, getKey, Bind.bind, Except.bind, pure, Except.pure]
    have hfs : mapExcept _plot_structural_feature_chk
        (data.structural_features.getD []) =
        .ok ((data.structural_features.getD []).map (fun _ => ())) := by
      refine mapExcept_congr_ok _ _ _ (fun f hf2 => ?_)
      obtain ⟨ht, hcrd⟩ := hf f hf2
      obtain ⟨t, ht⟩ := Option.isSome_iff_exists.mp ht
      obtain ⟨crd, hcrd⟩ := Option.isSome_iff_exists.mp hcrd
      by_cases hft : t = "fault" <;>
        simp [_plot_structural_feature_chk, ht, hcrd, hft, getKey,
          Bind.bind, Except.bind, pure, Except.pure]
    have hplot : _plot_geological_features data =
        .ok ((listMin (cs.map (fun p => p.lon)) - 1/10,
              listMax (cs.map (fun p => p.lon)) + 1/10),
             (listMin (cs.map (fun p => p.lat)) - 1/10,
              listMax (cs.map (fun p => p.lat)) + 1/10)) := by
      simp [_plot_geological_features, hcs, getKey,
        pyMin_eq_listMin _ hlon, pyMax_eq_listMax _ hlon,
        pyMin_eq_listMin _ hlat, pyMax_eq_listMax _ hlat,
        hunits, hbds, hfs, Bind.bind, Except.bind, pure, Except.pure]
    have hbody : renderBody data = .ok (_save_map (data.id.getD "survey")) := by
      simp [renderBody, hplot, Bind.bind, Except.bind, pure, Except.pure]
    exact ⟨hplot, by simp [generate_detailed_map, hbody]⟩

theorem claim_C7_render_failure_witness :
    (generate_detailed_map mapDataEmpty).result = none ∧
    generate_detailed_map mapDataOk =
      { result := some "geological_map_s1.png", closed_figures := true } := by
  constructor
  · exact (claim_C7_render_failure mapDataEmpty).2.2.2.1 rfl
  · have h := ((claim_C7_render_failure mapDataOk).2.2.2.2.2 [⟨1, 2, none⟩]
      rfl (by decide) (by decide) (by decide) (by decide)).2
    exact h

/-! Lemmas for the C8 refinement. -/

theorem _get_unit_detailsS_eq (t : String) (s : ProcState) :
    _get_unit_detailsS t s = (_get_unit_details s.1 t, s) := by
  unfold _get_unit_detailsS _get_unit_details get_rockS get_mineralS
  cases h1 : get_rock s.1 t with
  | some r => simp
  | none => cases h2 : get_mineral s.1 t <;> simp [h2]

theorem classifyRawS_eq (u : InUnit) (s : ProcState) :
    classifyRawS u s = (classifyRaw s.1 u, s) := by
  unfold classifyRawS classifyRaw
  cases h1 : getKey u.type "type" with
  | error e => simp [h1, Bind.bind, Except.bind]
  | ok t =>
    cases h2 : getKey u.coordinates "coordinates" with
    | error e => simp [h1, h2, Bind.bind, Except.bind]
    | ok cs => simp [h1, h2, _get_unit_detailsS_eq, Bind.bind, Except.bind,
        pure, Except.pure]

theorem mapExceptS_fix {a b : Type}
    (f : a → ProcState → Except PyErr b × ProcState) (g : a → Except PyErr b)
    (s0 : ProcState) (h : ∀ x, f x s0 = (g x, s0)) :
    ∀ l, mapExceptS f l s0 = (mapExcept g l, s0) := by
  intro l
  induction l with
  | nil => rfl
  | cons x xs ih =>
    unfold mapExceptS
    rw [h x]
    cases hgx : g x with
    | error e => simp [mapExcept, hgx, Bind.bind, Except.bind]
    | ok y =>
      cases hxs : mapExcept g xs with
      | error e => simp [mapExcept, ih, hgx, hxs, Bind.bind, Except.bind]
      | ok ys => simp [mapExcept, ih, hgx, hxs, Bind.bind, Except.bind, pure, Except.pure]

/-- C8: `process_survey_data` is deterministic and mutation-free: run against
the mutable state (the processor's knowledge base and the caller's survey
dict) it returns the untouched state, agrees with the pure embedding, and a
second call on the state left by the first yields the identical output. -/
theorem claim_C8_deterministic (kb : KnowledgeBase) (sd : SurveyData) :
    process_survey_dataS (kb, sd) = (process_survey_data kb sd, (kb, sd)) ∧
    (process_survey_dataS (process_survey_dataS (kb, sd)).2).1
      = (process_survey_dataS (kb, sd)).1 := by
  have hu : _identify_unitsS (kb, sd) = (_identify_units kb sd, (kb, sd)) := by
    unfold _identify_unitsS _identify_units
    exact mapExceptS_fix _ _ _ (fun u => classifyRawS_eq u (kb, sd)) _
  have hmain : process_survey_dataS (kb, sd) = (process_survey_data kb sd, (kb, sd)) := by
    unfold process_survey_dataS
    rw [hu]
    cases hiu : _identify_units kb sd with
    | error e => simp [process_survey_data, hiu, Bind.bind, Except.bind]
    | ok units =>
      unfold _identify_boundariesS _identify_structural_featuresS
      cases hib : _identify_boundaries sd with
      | error e => simp [process_survey_data, hiu, hib, Bind.bind, Except.bind]
      | ok bds =>
        simp [process_survey_data, hiu, hib, Bind.bind, Except.bind,
          pure, Except.pure]
  exact ⟨hmain, by simp [hmain]⟩

/-- C6 counterexample: on a survey whose single unit lacks the `"type"` field,
`process_survey_data` raises a `KeyError` instead of degrading to empty
derived collections, so the claimed graceful degradation is false. -/
theorem claim_C6_counterexample :
    process_survey_data kbEmpty sdNoType = .error (.keyError "type") := by
  rfl

/-- C6 (amended): for unit entries missing expected fields the processing
layer does NOT degrade gracefully: a unit missing its `"type"` or
`"coordinates"` field makes `process_survey_data` raise a `KeyError`
(the graceful-degradation guarantee only covers absent or empty top-level
collections, claim C5). -/
theorem claim_C6_amended_malformed (kb : KnowledgeBase) (sd : SurveyData)
    (u : InUnit) (hmem : u ∈ sd.units.getD [])
    (hbad : u.type = none ∨ u.coordinates = none) :
    ∃ e, process_survey_data kb sd = .error e := by
  have hcf : ∃ e0, classifyRaw kb u = .error e0 := by
    rcases hbad with ht | hc
    · exact ⟨.keyError "type",
        by simp [classifyRaw, ht, getKey, Bind.bind, Except.bind]⟩
    · cases ht : u.type with
      | none => exact ⟨.keyError "type",
          by simp [classifyRaw, ht, getKey, Bind.bind, Except.bind]⟩
      | some t => exact ⟨.keyError "coordinates",
          by simp [classifyRaw, ht, hc, getKey, Bind.bind, Except.bind]⟩
  obtain ⟨e0, he0⟩ := hcf
  obtain ⟨e1, he1⟩ := mapExcept_error_of_mem (classifyRaw kb) hmem he0
  exact ⟨e1, by simp [process_survey_data, _identify_units, he1,
    Bind.bind, Except.bind]⟩

theorem claim_C6_amended_malformed_witness :
    ∃ e, process_survey_data kbEmpty sdNoType = .error e :=
  claim_C6_amended_malformed kbEmpty sdNoType
    ⟨none, some [⟨0, 0, none⟩], none⟩ (by simp [sdNoType]) (Or.inl rfl)

/-! Lemmas for C1. -/

theorem boundaryStep_ok (us : List InUnit)
    (hwf : ∀ u ∈ us, u.type.isSome ∧ u.coordinates.getD [] ≠ [])
    (i : ℕ) (hi : i + 1 < us.length) :
    boundaryStep us i = .ok (mkBoundary us i) := by
  have hilt : i < us.length := by omega
  have hui : us[i]? = some us[i] := List.getElem?_eq_getElem hilt
  have huj : us[i + 1]? = some us[i + 1] := List.getElem?_eq_getElem hi
  obtain ⟨hti, hci⟩ := hwf _ (List.getElem_mem hilt)
  obtain ⟨htj, hcj⟩ := hwf _ (List.getElem_mem hi)
  obtain ⟨ti, hti⟩ := Option.isSome_iff_exists.mp hti
  obtain ⟨tj, htj⟩ := Option.isSome_iff_exists.mp htj
  cases hc1 : us[i].coordinates with
  | none => rw [hc1] at hci; simp at hci
  | some ci =>
    cases hc2 : us[i + 1].coordinates with
    | none => rw [hc2] at hcj; simp at hcj
    | some cj =>
      have hcine : ci ≠ [] := by rw [hc1] at hci; simpa using hci
      have hcjne : cj ≠ [] := by rw [hc2] at hcj; simpa using hcj
      have hlast : ci.getLast? = some (ci.getLast hcine) :=
        List.getLast?_eq_getLast ci hcine
      obtain ⟨y, ys, rfl⟩ := List.exists_cons_of_ne_nil hcjne
      simp [boundaryStep, mkBoundary, unitAt, listGet, listLast, getKey,
        hui, huj, hti, htj, hc1, hc2, hlast,
        Bind.bind, Except.bind, pure, Except.pure]

/-- C1: with at least two well-formed units, processing succeeds and produces
one "contact" boundary per adjacent unit pair in input order (count `N - 1`),
the `i`-th interpolating between the last coordinate of unit `i` and the
first coordinate of unit `i + 1`; every interpolated path has exactly 5
points, each lying (component-wise on lat, lon and elevation) within the
inclusive range bounded by its two endpoints; with fewer than two units no
boundaries are produced. -/
theorem claim_C1_boundaries (kb : KnowledgeBase) (sd : SurveyData)
    (hwf : ∀ u ∈ sd.units.getD [], u.type.isSome ∧ u.coordinates.getD [] ≠ []) :
    (2 ≤ (sd.units.getD []).length →
      ∃ pr, process_survey_data kb sd = .ok pr ∧
        pr.boundaries.length = (sd.units.getD []).length - 1 ∧
        (∀ i, i < (sd.units.getD []).length - 1 →
          pr.boundaries.get? i = some (mkBoundary (sd.units.getD []) i)) ∧
        (∀ b ∈ pr.boundaries, b.type = "contact" ∧ b.coordinates.length = 5)) ∧
    ((sd.units.getD []).length < 2 →
      ∃ pr, process_survey_data kb sd = .ok pr ∧ pr.boundaries = []) ∧
    (∀ p1 p2 : Coord, (_interpolate_points p1 p2).length = 5 ∧
      ∀ q ∈ _interpolate_points p1 p2, coordInRange q p1 p2) := by
  have hunits : ∃ outs, _identify_units kb sd = .ok outs := by
    refine ⟨_, mapExcept_congr_ok (classifyRaw kb) (fun u =>
      { type := u.type.getD "", coordinates := u.coordinates.getD [],
        properties := _get_unit_details kb (u.type.getD ""),
        description := u.description.getD "" }) _ (fun u hu => ?_)⟩
    obtain ⟨ht, hc⟩ := hwf u hu
    obtain ⟨t, ht⟩ := Option.isSome_iff_exists.mp ht
    cases hcs : u.coordinates with
    | none => rw [hcs] at hc; simp at hc
    | some cs =>
      simp [classifyRaw, ht, hcs, getKey, Bind.bind, Except.bind, pure, Except.pure]
  obtain ⟨outs, houts⟩ := hunits
  refine ⟨?_, ?_, fun p1 p2 =>
    ⟨_interpolate_points_length p1 p2, _interpolate_points_inRange p1 p2⟩⟩
  · intro hlen
    have h1lt : 1 < (sd.units.getD []).length := by omega
    have hbds : _identify_boundaries sd =
        .ok ((List.range ((sd.units.getD []).length - 1)).map
          (mkBoundary (sd.units.getD []))) := by
      have heq : _identify_boundaries sd =
          mapExcept (boundaryStep (sd.units.getD []))
            (List.range ((sd.units.getD []).length - 1)) := by
        simp only [_identify_boundaries]
        rw [if_pos h1lt]
      rw [heq]
      refine mapExcept_congr_ok _ _ _ (fun i hi => ?_)
      have hi2 : i + 1 < (sd.units.getD []).length := by
        have := List.mem_range.mp hi; omega
      exact boundaryStep_ok _ hwf i hi2
    refine ⟨⟨outs,
      (List.range ((sd.units.getD []).length - 1)).map (mkBoundary (sd.units.getD [])),
      _identify_structural_features sd, sd.coordinates.getD []⟩, ?_, ?_, ?_, ?_⟩
    · simp [process_survey_data, houts, hbds, Bind.bind, Except.bind, pure, Except.pure]
    · simp
    · intro i hi
      rw [List.get?_eq_getElem?]
      simp [List.getElem?_map, List.getElem?_range hi]
    · intro b hb
      simp only [List.mem_map, List.mem_range] at hb
      obtain ⟨i, hi, rfl⟩ := hb
      exact ⟨rfl, _interpolate_points_length _ _⟩
  · intro hlen
    have hbds : _identify_boundaries sd = .ok [] := by
      simp only [_identify_boundaries]
      rw [if_neg (by omega)]
      rfl
    exact ⟨⟨outs, [], _identify_structural_features sd, sd.coordinates.getD []⟩,
      by simp [process_survey_data, houts, hbds, Bind.bind, Except.bind,
        pure, Except.pure], rfl⟩

theorem claim_C1_boundaries_witness :
    ∃ pr, process_survey_data kbEmpty sdTwoUnits = .ok pr ∧
      pr.boundaries.length = 1 := by
  obtain ⟨pr, h1, h2, h3, h4⟩ :=
    (claim_C1_boundaries kbEmpty sdTwoUnits (by decide)).1 (by decide)
  exact ⟨pr, h1, by rw [h2]; rfl⟩

/-! Lemmas for C2: Python `max`, `list.index`, and `zip` facts. -/

theorem le_foldl_max (l : List ℚ) (b : ℚ) : b ≤ l.foldl max b := by
  induction l generalizing b with
  | nil => exact le_refl b
  | cons x xs ih => exact le_trans (le_max_left b x) (ih (max b x))

theorem mem_le_foldl_max (l : List ℚ) (x : ℚ) (hx : x ∈ l) :
    ∀ b, x ≤ l.foldl max b := by
  induction l with
  | nil => cases hx
  | cons y ys ih =>
    intro b
    rcases List.mem_cons.mp hx with rfl | hmem
    · exact le_trans (le_max_right b x) (le_foldl_max ys (max b x))
    · exact ih hmem (max b y)

theorem foldl_max_mem (l : List ℚ) : ∀ b, l.foldl max b = b ∨ l.foldl max b ∈ l := by
  induction l with
  | nil => exact fun b => Or.inl rfl
  | cons y ys ih =>
    intro b
    rcases ih (max b y) with h | h
    · rcases max_choice b y with hb | hy
      · exact Or.inl (by rw [show (y :: ys).foldl max b = ys.foldl max (max b y) from rfl, h, hb])
      · refine Or.inr ?_
        rw [show (y :: ys).foldl max b = ys.foldl max (max b y) from rfl, h, hy]
        exact List.mem_cons_self y ys
    · exact Or.inr (List.mem_cons_of_mem y h)

theorem listMax_spec (l : List ℚ) (hl : l ≠ []) :
    listMax l ∈ l ∧ ∀ x ∈ l, x ≤ listMax l := by
  cases l with
  | nil => exact absurd rfl hl
  | cons x xs =>
    have hdef : listMax (x :: xs) = xs.foldl max x := rfl
    constructor
    · rcases foldl_max_mem xs x with h | h
      · rw [hdef, h]
        exact List.mem_cons_self x xs
      · rw [hdef]
        exact List.mem_cons_of_mem x h
    · intro y hy
      rcases List.mem_cons.mp hy with rfl | hmem
      · rw [hdef]
        exact le_foldl_max xs y
      · rw [hdef]
        exact mem_le_foldl_max xs y hmem x

theorem firstIdxOf_spec (l : List ℚ) (v : ℚ) (hv : v ∈ l) :
    l.get? (firstIdxOf l v) = some v ∧
    ∀ j, j < firstIdxOf l v → l.get? j ≠ some v := by
  induction l with
  | nil => cases hv
  | cons x xs ih =>
    by_cases hx : x = v
    · subst hx
      have hz : firstIdxOf (x :: xs) x = 0 := by
        simp [firstIdxOf, List.findIdx_cons]
      rw [hz]
      exact ⟨rfl, fun j hj => absurd hj (Nat.not_lt_zero j)⟩
    · have hv2 : v ∈ xs := by
        rcases List.mem_cons.mp hv with rfl | h
        · exact absurd rfl hx
        · exact h
      have hbeq : (x == v) = false := beq_eq_false_iff_ne.mpr hx
      have hstep : firstIdxOf (x :: xs) v = firstIdxOf xs v + 1 := by
        simp [firstIdxOf, List.findIdx_cons, hbeq]
      obtain ⟨h1, h2⟩ := ih hv2
      rw [hstep]
      refine ⟨h1, ?_⟩
      intro j hj
      cases j with
      | zero => simp [hx]
      | succ k => exact h2 k (by omega)

theorem zip_get?_eq_some {A B : Type} :
    ∀ (as : List A) (bs : List B) (i : ℕ) (x : A) (y : B),
      (as.zip bs).get? i = some (x, y) ↔ as.get? i = some x ∧ bs.get? i = some y := by
  intro as
  induction as with
  | nil => intro bs i x y; simp
  | cons a as ih =>
    intro bs i x y
    cases bs with
    | nil => simp
    | cons b bs =>
      cases i with
      | zero => simp [List.zip_cons_cons, Prod.ext_iff, And.comm, eq_comm]
      | succ k => simpa [List.zip_cons_cons] using ih bs k x y

theorem get?_tail {A : Type} (l : List A) (k : ℕ) :
    l.tail.get? k = l.get? (k + 1) := by
  cases l <;> rfl

theorem getD_of_get? {A : Type} [Inhabited A] :
    ∀ {l : List A} {k : ℕ} {x : A}, l.get? k = some x → l.getD k default = x := by
  intro l
  induction l with
  | nil => intro k x h; cases h
  | cons a as ih =>
    intro k x h
    cases k with
    | zero => cases h; rfl
    | succ j => exact ih h

theorem lt_length_of_get?_eq_some {A : Type} {l : List A} {k : ℕ} {x : A}
    (h : l.get? k = some x) : k < l.length := by
  by_contra hk
  rw [List.get?_eq_none.mpr (by omega)] at h
  cases h

/-- C2: with at least two coordinates, the fault detector takes the absolute
elevation deltas of consecutive coordinate pairs in input order; if the
maximum exceeds 50 exactly one "fault" feature is emitted, anchored at the
coordinates bounding the first-occurring maximum delta and carrying that
delta as displacement; a maximum of at most 50, or fewer than 2 coordinates,
emits nothing; and whenever processing succeeds its `structural_features`
field is exactly this detector output. -/
theorem claim_C2_fault (kb : KnowledgeBase) (sd : SurveyData) (cs : List Coord)
    (hcs : sd.coordinates.getD [] = cs) :
    (2 ≤ cs.length →
      (50 < listMax (elevDeltas cs) →
        ∃ k, _identify_structural_features sd =
            [{ type := "fault",
               coordinates := [cs.getD k default, cs.getD (k + 1) default],
               displacement := listMax (elevDeltas cs) }] ∧
          (elevDeltas cs).get? k = some (listMax (elevDeltas cs)) ∧
          (∀ j, j < k → (elevDeltas cs).get? j ≠ some (listMax (elevDeltas cs))) ∧
          (∀ d ∈ elevDeltas cs, d ≤ listMax (elevDeltas cs))) ∧
      (listMax (elevDeltas cs) ≤ 50 → _identify_structural_features sd = [])) ∧
    (cs.length < 2 → _identify_structural_features sd = []) ∧
    (∀ pr, process_survey_data kb sd = .ok pr →
      pr.structural_features = _identify_structural_features sd) := by
  subst hcs
  refine ⟨?_, ?_, ?_⟩
  · intro hlen
    have h1lt : 1 < (sd.coordinates.getD []).length := by omega
    constructor
    · intro h50
      have hdne : elevDeltas (sd.coordinates.getD []) ≠ [] := by
        have : (elevDeltas (sd.coordinates.getD [])).length =
            min (sd.coordinates.getD []).length
              ((sd.coordinates.getD []).tail.length) := by
          simp [elevDeltas]
        intro hnil
        rw [hnil] at this
        simp [List.length_tail] at this
        omega
      obtain ⟨hmem, hbound⟩ := listMax_spec _ hdne
      obtain ⟨hk1, hk2⟩ := firstIdxOf_spec _ _ hmem
      have hklt : firstIdxOf (elevDeltas (sd.coordinates.getD []))
          (listMax (elevDeltas (sd.coordinates.getD []))) <
          (elevDeltas (sd.coordinates.getD [])).length :=
        lt_length_of_get?_eq_some hk1
      have hplt : firstIdxOf (elevDeltas (sd.coordinates.getD []))
          (listMax (elevDeltas (sd.coordinates.getD []))) <
          ((sd.coordinates.getD []).zip (sd.coordinates.getD []).tail).length := by
        simpa [elevDeltas] using hklt
      obtain ⟨p, hp⟩ : ∃ p, ((sd.coordinates.getD []).zip
          (sd.coordinates.getD []).tail).get?
            (firstIdxOf (elevDeltas (sd.coordinates.getD []))
              (listMax (elevDeltas (sd.coordinates.getD [])))) = some p :=
        ⟨_, List.get?_eq_get hplt⟩
      obtain ⟨hpa, hpb⟩ := (zip_get?_eq_some _ _ _ p.1 p.2).mp (by simpa using hp)
      rw [get?_tail] at hpb
      refine ⟨firstIdxOf (elevDeltas (sd.coordinates.getD []))
        (listMax (elevDeltas (sd.coordinates.getD []))), ?_, hk1, hk2, hbound⟩
      rw [getD_of_get? hpa, getD_of_get? hpb]
      simp only [_identify_structural_features]
      rw [if_pos h1lt, if_pos h50, hp]
    · intro h50
      simp only [_identify_structural_features]
      rw [if_pos h1lt, if_neg (not_lt.mpr h50)]
  · intro hlen
    simp only [_identify_structural_features]
    rw [if_neg (by omega)]
  · intro pr h
    unfold process_survey_data at h
    cases hiu : _identify_units kb sd with
    | error e => simp [hiu, Bind.bind, Except.bind] at h
    | ok us2 =>
      cases hib : _identify_boundaries sd with
      | error e => simp [hiu, hib, Bind.bind, Except.bind] at h
      | ok bds =>
        simp [hiu, hib, Bind.bind, Except.bind, pure, Except.pure] at h
        rw [← h]

theorem claim_C2_fault_witness :
    ∃ k, _identify_structural_features sdDeltas =
        [{ type := "fault",
           coordinates := [csDeltas.getD k default, csDeltas.getD (k + 1) default],
           displacement := listMax (elevDeltas csDeltas) }] ∧
      (elevDeltas csDeltas).get? k = some (listMax (elevDeltas csDeltas)) := by
  obtain ⟨k, h1, h2, h3, h4⟩ :=
    ((claim_C2_fault kbEmpty sdDeltas csDeltas rfl).1 (by decide)).1
      (by norm_num [csDeltas, elevDeltas, elevOf, listMax])
  exact ⟨k, h1, h2⟩

/-! Lemmas for C9: survey ids decode to their sequence number, hence are
injective; the store operations keep ids stable. -/

theorem digitChar_toNat_sub (d : ℕ) (hd : d < 10) :
    (Nat.digitChar d).toNat - 48 = d := by
  interval_cases d <;> rfl

theorem valChars_replicate_zero (k : ℕ) (l : List Char) :
    valChars (List.replicate k '0' ++ l) = valChars l := by
  induction k with
  | zero => rfl
  | succ n ih => exact ih

theorem foldr_digits_eq_ofDigits :
    ∀ ds : List ℕ, (∀ d ∈ ds, d < 10) →
      ds.foldr (fun d acc => 10 * acc + ((Nat.digitChar d).toNat - 48)) 0
        = Nat.ofDigits 10 ds := by
  intro ds
  induction ds with
  | nil => intro h; simp [Nat.ofDigits]
  | cons d ds ih =>
    intro h
    have hd : d < 10 := h d (List.mem_cons_self d ds)
    have hds := ih (fun x hx => h x (List.mem_cons_of_mem d hx))
    rw [List.foldr_cons, hds, digitChar_toNat_sub d hd, Nat.ofDigits_cons]
    omega

theorem ofDigits_decDigitsAux : ∀ (fuel n : ℕ), n ≤ fuel →
    Nat.ofDigits 10 (decDigitsAux fuel n) = n := by
  intro fuel
  induction fuel with
  | zero =>
    intro n hn
    have hz : n = 0 := by omega
    subst hz
    simp [decDigitsAux, Nat.ofDigits]
  | succ f ih =>
    intro n hn
    by_cases h0 : n = 0
    · subst h0; simp [decDigitsAux, Nat.ofDigits]
    · have hdiv : n / 10 ≤ f := by
        have h1 : n / 10 < n := Nat.div_lt_self (Nat.pos_of_ne_zero h0) (by norm_num)
        omega
      rw [show decDigitsAux (f + 1) n = n % 10 :: decDigitsAux f (n / 10) by
        simp [decDigitsAux, h0]]
      rw [Nat.ofDigits_cons, ih _ hdiv]
      omega

theorem decDigitsAux_lt_ten : ∀ (fuel n : ℕ), ∀ d ∈ decDigitsAux fuel n, d < 10 := by
  intro fuel
  induction fuel with
  | zero => intro n d hd; cases hd
  | succ f ih =>
    intro n d hd
    by_cases h0 : n = 0
    · rw [h0] at hd; simp [decDigitsAux] at hd
    · rw [show decDigitsAux (f + 1) n = n % 10 :: decDigitsAux f (n / 10) by
        simp [decDigitsAux, h0]] at hd
      rcases List.mem_cons.mp hd with rfl | hd2
      · exact Nat.mod_lt n (by norm_num)
      · exact ih _ d hd2

theorem valChars_decChars (n : ℕ) : valChars (decChars n) = n := by
  by_cases h0 : n = 0
  · subst h0; rfl
  · unfold decChars valChars
    rw [if_neg h0, List.foldl_reverse, List.foldr_map]
    have hb := foldr_digits_eq_ofDigits (decDigitsAux n n) (decDigitsAux_lt_ten n n)
    rw [hb]
    exact ofDigits_decDigitsAux n n le_rfl

theorem valChars_fmt03 (n : ℕ) : valChars (fmt03 n) = n := by
  unfold fmt03
  rw [valChars_replicate_zero]
  exact valChars_decChars n

theorem mkSurveyId_inj {m n : ℕ} (h : mkSurveyId m = mkSurveyId n) : m = n := by
  have h2 : "survey_".data ++ fmt03 m = "survey_".data ++ fmt03 n :=
    congrArg String.data h
  have h3 : fmt03 m = fmt03 n := List.append_cancel_left h2
  have h4 := congrArg valChars h3
  rwa [valChars_fmt03, valChars_fmt03] at h4

theorem updateFirst_length {a : Type} (p : a → Bool) (f : a → a) :
    ∀ l : List a, (updateFirst p f l).length = l.length := by
  intro l
  induction l with
  | nil => rfl
  | cons y ys ih =>
    cases hp : p y <;> simp [updateFirst, hp, ih]

theorem updateFirst_get?_shape {a : Type} (p : a → Bool) (f : a → a) :
    ∀ (l : List a) (i : ℕ) (x : a), l.get? i = some x →
      (updateFirst p f l).get? i = some x ∨
      (updateFirst p f l).get? i = some (f x) := by
  intro l
  induction l with
  | nil => intro i x h; cases h
  | cons y ys ih =>
    intro i x h
    cases hp : p y with
    | true =>
      cases i with
      | zero =>
        obtain rfl : y = x := by simpa using h
        exact Or.inr (by simp [updateFirst, hp])
      | succ k =>
        refine Or.inl ?_
        rw [show updateFirst p f (y :: ys) = f y :: ys by simp [updateFirst, hp]]
        exact h
    | false =>
      have hcons : updateFirst p f (y :: ys) = y :: updateFirst p f ys := by
        simp [updateFirst, hp]
      cases i with
      | zero =>
        obtain rfl : y = x := by simpa using h
        exact Or.inl (by rw [hcons]; rfl)
      | succ k =>
        rcases ih k x h with h2 | h2
        · exact Or.inl (by rw [hcons]; exact h2)
        · exact Or.inr (by rw [hcons]; exact h2)

theorem updateFirst_get?_of_first {a : Type} (p : a → Bool) (f : a → a) :
    ∀ (l : List a) (i : ℕ) (s : a), l.get? i = some s → p s = true →
      (∀ j t, j < i → l.get? j = some t → p t = false) →
      (updateFirst p f l).get? i = some (f s) ∧
      ∀ j, j ≠ i → (updateFirst p f l).get? j = l.get? j := by
  intro l
  induction l with
  | nil => intro i s h; cases h
  | cons x xs ih =>
    intro i s hget hp hfirst
    cases i with
    | zero =>
      obtain rfl : x = s := by simpa using hget
      refine ⟨by simp [updateFirst, hp], ?_⟩
      intro j hj
      cases j with
      | zero => exact absurd rfl hj
      | succ k => simp [updateFirst, hp]
    | succ k =>
      have hpx : p x = false := hfirst 0 x (Nat.succ_pos k) rfl
      have hcons : updateFirst p f (x :: xs) = x :: updateFirst p f xs := by
        simp [updateFirst, hpx]
      obtain ⟨ihl, ihr⟩ := ih k s hget hp
        (fun j t hj hgt => hfirst (j + 1) t (by omega) hgt)
      refine ⟨by rw [hcons]; exact ihl, ?_⟩
      intro j hj
      cases j with
      | zero => rw [hcons]; rfl
      | succ j2 =>
        rw [hcons]
        exact ihr j2 (by omega)

theorem create_survey_fst (surveys : List Survey) (cs : List Coord)
    (f : Option String) (d : String) :
    (create_survey surveys cs f d).1 = surveys ++
      [{ id := mkSurveyId (surveys.length + 1), coordinates := cs,
         descriptions := [], formation := f, date := d }] := rfl

theorem add_description_fst_found (kb : KnowledgeBase) (surveys : List Survey)
    (sid t : String) (li : ℕ) (sv : Survey)
    (hf : _get_survey surveys sid = some sv) :
    (add_description kb surveys sid t li).1 =
      updateFirst (fun s2 => s2.id == sid)
        (fun s2 => { s2 with descriptions := s2.descriptions ++
          [⟨li, t, infer_type_from_description t⟩] }) surveys := by
  simp only [add_description, hf]
  cases hit : infer_type_from_description t <;> simp [hit]

theorem applyOp_id_stable (kb : KnowledgeBase) (surveys : List Survey)
    (op : MgrOp) (i : ℕ) (s : Survey) (h : surveys.get? i = some s) :
    ∃ t, (applyOp kb surveys op).get? i = some t ∧ t.id = s.id := by
  cases op with
  | create cs f d =>
    refine ⟨s, ?_, rfl⟩
    have hlt : i < surveys.length := lt_length_of_get?_eq_some h
    rw [show applyOp kb surveys (.create cs f d) = (create_survey surveys cs f d).1
      from rfl, create_survey_fst, List.get?_append hlt]
    exact h
  | addDesc sid t li =>
    cases hf : _get_survey surveys sid with
    | none =>
      refine ⟨s, ?_, rfl⟩
      rw [show applyOp kb surveys (.addDesc sid t li) =
        (add_description kb surveys sid t li).1 from rfl]
      simp only [add_description, hf]
      exact h
    | some sv =>
      have hfst := add_description_fst_found kb surveys sid t li sv hf
      rcases updateFirst_get?_shape (fun s2 => s2.id == sid)
        (fun s2 => { s2 with descriptions := s2.descriptions ++
          [⟨li, t, infer_type_from_description t⟩] }) surveys i s h with h2 | h2
      · exact ⟨s, by rw [show applyOp kb surveys (.addDesc sid t li) =
          (add_description kb surveys sid t li).1 from rfl, hfst]; exact h2, rfl⟩
      · refine ⟨{ s with descriptions := s.descriptions ++
            [⟨li, t, infer_type_from_description t⟩] }, ?_, rfl⟩
        rw [show applyOp kb surveys (.addDesc sid t li) =
          (add_description kb surveys sid t li).1 from rfl, hfst]
        exact h2

theorem applyOp_preserves_idInv (kb : KnowledgeBase) (surveys : List Survey)
    (op : MgrOp) (hinv : idInv surveys) : idInv (applyOp kb surveys op) := by
  cases op with
  | create cs f d =>
    intro i s h
    rw [show applyOp kb surveys (.create cs f d) = (create_survey surveys cs f d).1
      from rfl, create_survey_fst] at h
    by_cases hlt : i < surveys.length
    · rw [List.get?_append hlt] at h
      exact hinv i s h
    · have hlen := lt_length_of_get?_eq_some h
      rw [List.length_append, List.length_singleton] at hlen
      have hieq : i = surveys.length := by omega
      subst hieq
      rw [List.get?_append_right (le_refl _)] at h
      simp at h
      rw [← h]
  | addDesc sid t li =>
    intro i s h
    cases hf : _get_survey surveys sid with
    | none =>
      rw [show applyOp kb surveys (.addDesc sid t li) =
        (add_description kb surveys sid t li).1 from rfl] at h
      simp only [add_description, hf] at h
      exact hinv i s h
    | some sv =>
      have hfst := add_description_fst_found kb surveys sid t li sv hf
      rw [show applyOp kb surveys (.addDesc sid t li) =
        (add_description kb surveys sid t li).1 from rfl, hfst] at h
      have hlt : i < surveys.length := by
        have h1 := lt_length_of_get?_eq_some h
        rwa [updateFirst_length] at h1
      obtain ⟨x, hx⟩ : ∃ x, surveys.get? i = some x := ⟨_, List.get?_eq_get hlt⟩
      rcases updateFirst_get?_shape (fun s2 => s2.id == sid)
        (fun s2 => { s2 with descriptions := s2.descriptions ++
          [⟨li, t, infer_type_from_description t⟩] }) surveys i x hx with h2 | h2
      · rw [h2] at h
        obtain rfl : x = s := by simpa using h
        exact hinv i x hx
      · rw [h2] at h
        obtain rfl : ({ x with descriptions := x.descriptions ++
            [⟨li, t, infer_type_from_description t⟩] } : Survey) = s := by
          simpa using h
        exact hinv i x hx

theorem runOps_idInv (kb : KnowledgeBase) (ops : List MgrOp) :
    idInv (runOps kb ops) := by
  have hgen : ∀ (ops2 : List MgrOp) (st : List Survey),
      idInv st → idInv (ops2.foldl (applyOp kb) st) := by
    intro ops2
    induction ops2 with
    | nil => exact fun st h => h
    | cons op rest ih =>
      exact fun st h => ih _ (applyOp_preserves_idInv kb st op h)
  exact hgen ops [] (fun i s hi => by cases hi)

/-- C9: starting from the empty store, every single-threaded sequence of
`create_survey` / `add_description` operations yields pairwise-distinct survey
ids (sequential numbering from the append-only collection length), and no
operation ever changes the id of an existing survey. -/
theorem claim_C9_unique_stable_ids (kb : KnowledgeBase) (ops : List MgrOp) :
    (∀ i j s t, (runOps kb ops).get? i = some s → (runOps kb ops).get? j = some t →
      i ≠ j → s.id ≠ t.id) ∧
    (∀ (surveys : List Survey) (op : MgrOp) (i : ℕ) (s : Survey),
      surveys.get? i = some s →
      ∃ t, (applyOp kb surveys op).get? i = some t ∧ t.id = s.id) := by
  refine ⟨?_, fun surveys op i s h => applyOp_id_stable kb surveys op i s h⟩
  intro i j s t hs ht hij
  have h1 := runOps_idInv kb ops i s hs
  have h2 := runOps_idInv kb ops j t ht
  rw [h1, h2]
  intro hmk
  have := mkSurveyId_inj hmk
  omega

theorem claim_C9_unique_stable_ids_witness :
    (runOps kbEmpty opsW).get? 0
        = some ⟨"survey_001", [], [], none, "2026-01-01"⟩ ∧
    (runOps kbEmpty opsW).get? 1
        = some ⟨"survey_002", [], [], none, "2026-01-02"⟩ ∧
    ("survey_001" : String) ≠ "survey_002" := by
  refine ⟨by decide, by decide, ?_⟩
  exact (claim_C9_unique_stable_ids kbEmpty opsW).1 0 1
    ⟨"survey_001", [], [], none, "2026-01-01"⟩
    ⟨"survey_002", [], [], none, "2026-01-02"⟩
    (by decide) (by decide) (by omega)

/-- C10: `add_description` returns absence in two observably identical but
semantically different situations: an unknown survey id leaves the store
unchanged and returns `none`, while a known id with a description from which
no type can be inferred still appends the entry (with `inferred_type = none`)
to that survey — every other entry untouched — yet also returns `none`. -/
theorem claim_C10_absent_result (kb : KnowledgeBase) (surveys : List Survey)
    (survey_id description : String) (li : ℕ) :
    ((∀ s ∈ surveys, s.id ≠ survey_id) →
      add_description kb surveys survey_id description li = (surveys, none)) ∧
    (∀ i s, surveys.get? i = some s → s.id = survey_id →
      (∀ j t, j < i → surveys.get? j = some t → t.id ≠ survey_id) →
      infer_type_from_description description = none →
      (add_description kb surveys survey_id description li).2 = none ∧
      (add_description kb surveys survey_id description li).1.get? i =
        some { s with descriptions := s.descriptions ++
          [{ location_index := li, text := description, inferred_type := none }] } ∧
      (∀ j, j ≠ i → (add_description kb surveys survey_id description li).1.get? j
        = surveys.get? j)) := by
  constructor
  · intro hno
    have hf : _get_survey surveys survey_id = none := by
      rw [_get_survey, List.find?_eq_none]
      intro s hs
      simpa using hno s hs
    simp [add_description, hf]
  · intro i s hget hid hfirst hinf
    obtain ⟨sv, hf⟩ : ∃ sv, _get_survey surveys survey_id = some sv := by
      have hmem : s ∈ surveys := List.get?_mem hget
      have hsome : (surveys.find? (fun s2 => s2.id == survey_id)).isSome :=
        List.find?_isSome.mpr ⟨s, hmem, by simp [hid]⟩
      exact Option.isSome_iff_exists.mp hsome
    have hfst := add_description_fst_found kb surveys survey_id description li sv hf
    rw [hinf] at hfst
    obtain ⟨hupd1, hupd2⟩ := updateFirst_get?_of_first
      (fun s2 => s2.id == survey_id)
      (fun s2 => { s2 with descriptions := s2.descriptions ++
        [⟨li, description, none⟩] }) surveys i s hget (by simp [hid])
      (fun j t hj hgt => by
        have := hfirst j t hj hgt
        simpa using this)
    refine ⟨?_, ?_, ?_⟩
    · simp [add_description, hf, hinf]
    · rw [hfst]
      exact hupd1
    · intro j hj
      rw [hfst]
      exact hupd2 j hj

theorem claim_C10_absent_result_witness :
    (add_description kbEmpty storeOne "survey_001" "unremarkable gray rock" 0).2
      = none ∧
    (add_description kbEmpty storeOne "survey_001" "unremarkable gray rock" 0).1.get? 0
      = some { id := "survey_001", coordinates := [], descriptions :=
          [{ location_index := 0, text := "unremarkable gray rock",
             inferred_type := none }], formation := none, date := "d" } := by
  obtain ⟨h1, h2, h3⟩ := (claim_C10_absent_result kbEmpty storeOne "survey_001"
    "unremarkable gray rock" 0).2 0
    ⟨"survey_001", [], [], none, "d"⟩ (by decide) rfl
    (fun j t hj hgt => absurd hj (Nat.not_lt_zero j)) (by decide)
  exact ⟨h1, h2⟩

end GenMaps
